import Mathlib

/-!
Verification development for the toshi-ethereum-service transaction
submission pipeline (src/toshieth/jsonrpc.py) and ERC-20 token balance
cache refresher (src/toshieth/erc20manager.py).

The Python code is shallowly embedded: database rows become Lean
structures, SQL queries over the transactions table become list
operations, and the side-effecting pipeline steps (dispatcher messages,
inserts, notifications) become explicit effect lists.  Python integers
are arbitrary precision, so they are modelled by Nat (and Int where a
subtraction can go negative).
-/

namespace ToshiEth

/-- Transaction status values stored in the transactions table.
Source: spec section 3 and the string literals used in the SQL of
src/toshieth/jsonrpc.py. -/
inductive Status where
  | new
  | queued
  | unconfirmed
  | confirmed
  | error
  deriving Repr, DecidableEq

/-- Row of the transactions table, restricted to the columns the
submission pipeline reads.  value, gas and gas_price are stored as hex
strings in the database and parsed back with parse_int; since that
round trip is exact for unsigned integers they are modelled as Nat. -/
structure TxRow where
  txid : Nat
  sender : String
  nonce : Nat
  value : Nat
  gas : Nat
  gas_price : Nat
  status : Status
  deriving Repr, DecidableEq

/-- Condition `(status != 'error' or status = 'new')` from the SQL in
send_transaction (src/toshieth/jsonrpc.py lines 397-400). -/
def nonErrorOrNew (s : Status) : Bool :=
  (s != Status.error) || (s == Status.new)

/-- Row predicate of the SQL
`WHERE from_address = $1 AND nonce = $2 AND (status != 'error' or status = 'new')`. -/
def txMatch (sender : String) (nonce : Nat) (r : TxRow) : Bool :=
  r.sender == sender && r.nonce == nonce && nonErrorOrNew r.status

/-- Embedding of the fetchrow call at src/toshieth/jsonrpc.py lines
396-400: the first row of the transactions table matching the
(from_address, nonce, non-error) predicate. -/
def findExisting (db : List TxRow) (sender : String) (nonce : Nat) : Option TxRow :=
  db.find? (txMatch sender nonce)

/-- Number of non-error rows at a (from_address, nonce) slot; used to
state the at-most-one-non-error-row invariant from spec section 3. -/
def countNonError (db : List TxRow) (sender : String) (nonce : Nat) : Nat :=
  (db.filter (txMatch sender nonce)).length

/-- Pending statuses counted by get_transaction_count
(src/toshieth/jsonrpc.py lines 100-105):
`status = 'new' OR status = 'queued' OR status = 'unconfirmed'`. -/
def pendingStatus (s : Status) : Bool :=
  (s == Status.new) || (s == Status.queued) || (s == Status.unconfirmed)

/-- Maximum of a list of nonces; models the SQL
`ORDER BY nonce DESC` followed by fetchval taking the first row. -/
def maxNonceAux : List Nat → Option Nat
  | [] => none
  | n :: ns =>
    match maxNonceAux ns with
    | none => some n
    | some m => some (max n m)

/-- Highest nonce among the pending rows of one sender, the value
fetched by the database query in get_transaction_count
(src/toshieth/jsonrpc.py lines 99-105). -/
def maxPendingNonce (db : List TxRow) (addr : String) : Option Nat :=
  maxNonceAux ((db.filter (fun r => r.sender == addr && pendingStatus r.status)).map TxRow.nonce)

/-- Embedding of get_transaction_count (src/toshieth/jsonrpc.py lines
90-114).  nwNonce is the result of the eth_getTransactionCount RPC. -/
def get_transaction_count (nwNonce : Nat) (db : List TxRow) (addr : String) : Nat :=
  match maxPendingNonce db addr with
  | some n => if n + 1 < nwNonce then nwNonce else n + 1
  | none => nwNonce

/-- Nonce resolution step of create_transaction_skeleton
(src/toshieth/jsonrpc.py lines 189-195): an explicitly supplied nonce is
used as is, otherwise get_transaction_count resolves it. -/
def resolveNonce (nonce? : Option Nat) (nwNonce : Nat) (db : List TxRow) (addr : String) : Nat :=
  match nonce? with
  | some n => n
  | none => get_transaction_count nwNonce db addr

/-- Machine-readable error id plus human-readable message, the payload
of JsonRPCInvalidParamsError / JsonRPCInsufficientFundsError data. -/
structure ErrData where
  id : String
  message : String
  deriving Repr, DecidableEq

/-- Fields of the decoded transaction used by the send_transaction
critical section.  intrinsicGas models tx.intrinsic_gas_used as computed
by the external ethereum library. -/
structure SendTxInput where
  sender : String
  nonce : Nat
  value : Nat
  startgas : Nat
  gasprice : Nat
  intrinsicGas : Nat
  deriving Repr, DecidableEq

/-- Side effects emitted by the send_transaction critical section.
updateTransaction models the fire-and-forget
manager_dispatcher.update_transaction call (a queued task, not an
immediate database write), insertRow the committed INSERT INTO
transactions, processQueue the manager_dispatcher.process_transaction_queue
trigger.  The token_transactions insert and analytics calls are omitted:
no claim mentions them. -/
inductive Effect where
  | updateTransaction (txid : Nat) (status : Status)
  | insertRow (row : TxRow)
  | processQueue (sender : String)
  deriving Repr, DecidableEq

/-- Overwrite rejection condition of src/toshieth/jsonrpc.py line 403:
`existing and (parse_int(existing['gas_price']) >= tx.gasprice or existing['status'] == 'confirmed')`. -/
def overwriteBlocked (existing : Option TxRow) (gasprice : Nat) : Bool :=
  match existing with
  | some e => decide (gasprice ≤ e.gas_price) || (e.status == Status.confirmed)
  | none => false

/-- Refund credit from src/toshieth/jsonrpc.py lines 408-409: when an
existing row occupies the nonce, its value plus gas times gas_price is
added back to the spendable balance before the fund check. -/
def creditedBalance (balance : Nat) (existing : Option TxRow) : Nat :=
  match existing with
  | some e => balance + (e.value + e.gas * e.gas_price)
  | none => balance

/-- Row written by the INSERT of src/toshieth/jsonrpc.py lines 448-460.
The status column is not named by the INSERT; per spec section 3 the
submitter writes the default pending status, new. -/
def newTxRow (newTxid : Nat) (tx : SendTxInput) : TxRow :=
  ⟨newTxid, tx.sender, tx.nonce, tx.value, tx.startgas, tx.gasprice, Status.new⟩

/-- Check sequence of the send_transaction critical section with the
fetched existing row passed explicitly; see sendTransactionCS. -/
def sendChecks (db : List TxRow) (balance nwNonce newTxid : Nat) (tx : SendTxInput)
    (existing : Option TxRow) : Except ErrData (List Effect) :=
  if overwriteBlocked existing tx.gasprice then
    Except.error ⟨"invalid_nonce", "Nonce already used"⟩
  else if creditedBalance balance existing < tx.value + tx.startgas * tx.gasprice then
    Except.error ⟨"insufficient_funds", "Insufficient Funds"⟩
  else if existing.isNone && decide (tx.nonce < get_transaction_count nwNonce db tx.sender) then
    Except.error ⟨"invalid_nonce", "Provided nonce is too low"⟩
  else if existing.isNone && decide (get_transaction_count nwNonce db tx.sender < tx.nonce) then
    Except.error ⟨"invalid_nonce", "Provided nonce is too high"⟩
  else if tx.startgas < tx.intrinsicGas then
    Except.error ⟨"invalid_transaction", "Transaction gas is too low"⟩
  else
    match existing with
    | some e =>
      Except.ok [Effect.updateTransaction e.txid Status.error,
                 Effect.insertRow (newTxRow newTxid tx),
                 Effect.processQueue tx.sender]
    | none =>
      Except.ok [Effect.insertRow (newTxRow newTxid tx),
                 Effect.processQueue tx.sender]

/-- Embedding of the send_transaction critical section
(src/toshieth/jsonrpc.py lines 395-480), entered after the per
(sender, nonce) lock is acquired.  balance is the confirmed spendable
balance returned by get_balances (toshieth.mixins, outside src);
nwNonce the eth_getTransactionCount result; newTxid the serial id the
INSERT returns.  In source order: the overwrite check, the fund check
with refund credit, the nonce check (only without an existing row), the
intrinsic gas check, then the dispatched error transition for a
superseded row followed by the committed insert and the queue trigger. -/
def sendTransactionCS (db : List TxRow) (balance nwNonce newTxid : Nat)
    (tx : SendTxInput) : Except ErrData (List Effect) :=
  sendChecks db balance nwNonce newTxid tx (findExisting db tx.sender tx.nonce)

/-- State of the submission pipeline: the transactions table plus the
queue of fire-and-forget status updates sent to the manager dispatcher.
Modelled from the spec: toshieth.tasks and the manager worker are not
under src/; spec section 6 describes the dispatcher as fire-and-forget,
so a dispatched update is queued and applied later, not immediately. -/
structure PipelineState where
  db : List TxRow
  queue : List (Nat × Status)
  deriving Repr, DecidableEq

/-- Status update applied by the manager worker: every row with the
given transaction id receives the new status. -/
def setStatus (db : List TxRow) (txid : Nat) (st : Status) : List TxRow :=
  db.map (fun r => if r.txid == txid then { r with status := st } else r)

/-- Application of one critical-section effect to the pipeline state:
dispatched updates are enqueued, the insert is applied to the table,
queue triggers do not change this state. -/
def applyEffect (s : PipelineState) : Effect → PipelineState
  | Effect.updateTransaction txid st => { s with queue := s.queue ++ [(txid, st)] }
  | Effect.insertRow row => { s with db := s.db ++ [row] }
  | Effect.processQueue _ => s

/-- State visible at commit time: all critical-section effects applied,
dispatched updates still pending in the queue. -/
def applyCommit (s : PipelineState) (effs : List Effect) : PipelineState :=
  effs.foldl applyEffect s

/-- Modelled from the spec: the manager worker (not under src/)
processes one queued fire-and-forget status update. -/
def applyQueuedTask (s : PipelineState) : PipelineState :=
  match s.queue with
  | [] => s
  | (txid, st) :: rest => { db := setStatus s.db txid st, queue := rest }

/-- Error kinds raised inside the value resolution part of
create_transaction_skeleton. -/
inductive SkelErr where
  | invalidParams (id : String) (message : String)
  | insufficientFunds
  deriving Repr, DecidableEq

/-- Iterative gas stabilisation loop for a max-value send to a contract
recipient (src/toshieth/jsonrpc.py lines 252-273).  estimateGas models
the eth_estimateGas RPC at a given value, none meaning a JsonRPCError
reply.  The loop recomputes value = balance - gas_price * gas, aborting
after more than two changed estimates. -/
def maxValueLoop (balance gasPrice : Nat) (estimateGas : Int → Option Nat)
    (gas : Nat) (attempts : Nat) : Except SkelErr (Int × Nat) :=
  if attempts > 2 then
    Except.error (SkelErr.invalidParams "invalid_to_address" "Cannot send payments to that address")
  else
    let value : Int := (balance : Int) - ((gasPrice * gas : Nat) : Int)
    if value < 0 then
      Except.error SkelErr.insufficientFunds
    else
      match estimateGas value with
      | none =>
        Except.error (SkelErr.invalidParams "invalid_to_address" "Cannot send payments to that address")
      | some g2 =>
        if g2 == gas then Except.ok (value, gas)
        else maxValueLoop balance gasPrice estimateGas g2 (attempts + 1)
termination_by 3 - attempts
decreasing_by simp_wf; omega

/-- Embedding of the native max-value branch of
create_transaction_skeleton (src/toshieth/jsonrpc.py lines 241-280):
value = "max" with no token_address.  balance is the confirmed
spendable balance from get_balances; hasCode the truthiness of the
eth_getCode reply for the recipient.  The result carries the resolved
(value, gas) pair that flows into create_transaction; value is an Int
because the plain-address branch subtracts without a negativity check. -/
def maxValueNative (balance gasPrice : Nat) (gas? : Option Nat) (hasCode : Bool)
    (estimateGas : Int → Option Nat) : Except SkelErr (Int × Nat) :=
  match gas? with
  | none =>
    if hasCode then
      match estimateGas 0 with
      | none =>
        Except.error (SkelErr.invalidParams "invalid_to_address" "Cannot send payments to that address")
      | some g0 => maxValueLoop balance gasPrice estimateGas g0 0
    else
      Except.ok ((balance : Int) - ((gasPrice * 21000 : Nat) : Int), 21000)
  | some gas => Except.ok ((balance : Int) - ((gasPrice * gas : Nat) : Int), gas)

/-- Gas price resolution of create_transaction_skeleton
(src/toshieth/jsonrpc.py lines 157-182).  gasPrice? is the
caller-supplied price (already parsed), nonce? the raw nonce argument,
fromWhitelisted / toWhitelisted the two whitelist table lookups,
gasStation the redis gas_station_fast_gas_price entry (outer none =
absent, inner the parse_int result), nodeGasPrice the eth_gasPrice RPC
reply, defaultGasPrice the configured static fallback. -/
def resolveGasPrice (gasPrice? : Option Nat) (nonce? : Option Nat)
    (fromWhitelisted toWhitelisted : Bool)
    (gasStation : Option (Option Nat)) (nodeGasPrice : Option Nat)
    (defaultGasPrice : Nat) : Nat :=
  let gp1 : Option Nat :=
    if gasPrice?.isSome && nonce?.isNone && !(fromWhitelisted || toWhitelisted) then none
    else gasPrice?
  match gp1 with
  | some gp => gp
  | none =>
    let fromStation : Option Nat :=
      match gasStation with
      | some v => v
      | none => none
    match fromStation with
    | some gp => gp
    | none =>
      match nodeGasPrice with
      | some gp => gp
      | none => defaultGasPrice

/-- Modelled from the spec: toshi.utils.parse_int is outside src/.
For a 0x-prefixed hex string it decodes the digits as an unsigned
integer (stripping any zero padding), returning none on malformed
input; this is the only shape the token cache refresher feeds it. -/
def hexDigit? (c : Char) : Option Nat :=
  if ('0' ≤ c) ∧ (c ≤ '9') then some (c.toNat - Char.toNat '0')
  else if ('a' ≤ c) ∧ (c ≤ 'f') then some (c.toNat - Char.toNat 'a' + 10)
  else if ('A' ≤ c) ∧ (c ≤ 'F') then some (c.toNat - Char.toNat 'A' + 10)
  else none

/-- Accumulating hex digit fold used by parse_int. -/
def hexDigits? : List Char → Nat → Option Nat
  | [], acc => some acc
  | c :: cs, acc =>
    match hexDigit? c with
    | some d => hexDigits? cs (acc * 16 + d)
    | none => none

/-- Modelled from the spec: toshi.utils.parse_int restricted to
0x-prefixed hex strings (the only inputs the refresher gives it); a
bare 0x with no digits is malformed and yields none. -/
def parse_int (s : String) : Option Nat :=
  match s.toList with
  | '0' :: 'x' :: [] => none
  | '0' :: 'x' :: cs => hexDigits? cs 0
  | _ => none

/-- Outcome of one batched balanceOf call as seen by
update_token_cache: either the future raised or it returned a hex
string. -/
inductive CallResult where
  | failure
  | value (hex : String)
  deriving Repr, DecidableEq

/-- The all-zero 32-byte return compared against at
src/toshieth/erc20manager.py line 63. -/
def ZERO_RESULT : String :=
  "0x0000000000000000000000000000000000000000000000000000000000000000"

/-- Per-pair classification outcome inside update_token_cache. -/
inductive PairOutcome where
  | insertVal (n : Nat)
  | deleteRow
  | skip
  deriving Repr, DecidableEq

/-- Per-pair result interpretation of update_token_cache
(src/toshieth/erc20manager.py lines 60-74): a raised future or a failed
decode is caught by the per-pair except and skipped; the all-zero
32-byte string and the empty 0x string count as balance zero; any other
string is decoded by parse_int, positive balances go to the bulk insert
list, zero balances to the bulk delete list.  A parse_int failure makes
the Python comparison `None > 0` raise, which the same per-pair except
catches, hence skip. -/
def processPair (resp : CallResult) : PairOutcome :=
  match resp with
  | CallResult.failure => PairOutcome.skip
  | CallResult.value v =>
    if (v == ZERO_RESULT) || (v == "0x") then PairOutcome.deleteRow
    else
      match parse_int v with
      | none => PairOutcome.skip
      | some n => if n > 0 then PairOutcome.insertVal n else PairOutcome.deleteRow

/-- balanceOf call data built at src/toshieth/erc20manager.py line 51;
the suffix is the Python slice eth_address[2:]. -/
def balanceOfCallData (eth_address : String) : String :=
  "0x70a08231000000000000000000000000" ++ String.mk (eth_address.toList.drop 2)

/-- Side effects of update_token_cache: the token-list database read,
the cooldown set-if-not-exists, the batched eth_call round trip, the two
bulk database statements, and the SOFA TokenPayment notification
(payload details elided; only its presence matters to the claims).
redisDel is included so that the never-cleared-early property is a
statement about a constructor the function could have used. -/
inductive TokenEffect where
  | dbFetchTokens
  | redisSetNX (key : String) (expire : Nat)
  | redisDel (key : String)
  | ethBatch (calls : List (String × String))
  | dbUpsert (rows : List (String × String × Nat))
  | dbDelete (pairs : List (String × String))
  | notify (addr : String)
  deriving Repr, DecidableEq

/-- Environment of update_token_cache: the tokens table, the per-call
outcome of the batched balanceOf queries, and whether the bulk DELETE
reported at least one affected row (the `rval != "DELETE 0"` check). -/
structure TokenCacheEnv where
  knownTokens : List String
  ethCall : String → String → CallResult
  deleteAffectedRows : Bool

/-- Redis keys currently present (cooldown keys only). -/
structure RedisState where
  keys : List String
  deriving Repr, DecidableEq

/-- Cooldown key built at src/toshieth/erc20manager.py line 41. -/
def cooldownKey (addr : String) : String :=
  "bulk_token_update:" ++ addr

/-- Batched query and materialisation phase of update_token_cache
(src/toshieth/erc20manager.py lines 47-109): the cross product of
addresses and tokens is queried in one batch, each pair classified
independently, positive balances upserted in one bulk statement and
zero balances deleted in one bulk statement, and for wildcard refreshes
that changed a row a notification is sent to the refreshed address. -/
def batchPhase (env : TokenCacheEnv) (tokens : List String)
    (eth_addresses : List String) (is_wildcard : Bool) (a0 : String) : List TokenEffect :=
  let pairs := eth_addresses.flatMap (fun a => tokens.map (fun t => (t, a)))
  if pairs.length > 0 then
    let results := pairs.map (fun p => (p.1, p.2, processPair (env.ethCall p.1 p.2)))
    let bulk_insert := results.filterMap (fun r =>
      match r.2.2 with
      | PairOutcome.insertVal n => some (r.1, r.2.1, n)
      | _ => none)
    let bulk_delete := results.filterMap (fun r =>
      match r.2.2 with
      | PairOutcome.deleteRow => some (r.1, r.2.1)
      | _ => none)
    let batchEff := [TokenEffect.ethBatch (pairs.map (fun p => (p.1, balanceOfCallData p.2)))]
    let insEff := if bulk_insert.length > 0 then [TokenEffect.dbUpsert bulk_insert] else []
    let delEff := if bulk_delete.length > 0 then [TokenEffect.dbDelete bulk_delete] else []
    let send_update :=
      (bulk_insert.length > 0) || ((bulk_delete.length > 0) && env.deleteAffectedRows)
    let notifyEff := if is_wildcard && send_update then [TokenEffect.notify a0] else []
    batchEff ++ insEff ++ delEff ++ notifyEff
  else []

/-- Embedding of update_token_cache (src/toshieth/erc20manager.py lines
20-112).  An empty address list returns at once.  For the wildcard
contract the token list is read from the database, more than one address
raises, and the cooldown key is set with SET_IF_NOT_EXIST and a fixed
60 second expiry: when the key already exists the call stops before any
eth_call batch or cache mutation.  The returned state carries the keys
after the call (expiry passage itself is outside the function). -/
def update_token_cache (env : TokenCacheEnv) (redis : RedisState)
    (contract_address : String) (eth_addresses : List String) :
    Except String (RedisState × List TokenEffect) :=
  match eth_addresses with
  | [] => Except.ok (redis, [])
  | a0 :: rest =>
    let is_wildcard := contract_address == "*"
    let tokens := if is_wildcard then env.knownTokens else [contract_address]
    let effs0 : List TokenEffect := if is_wildcard then [TokenEffect.dbFetchTokens] else []
    if is_wildcard then
      if (a0 :: rest).length > 1 then
        Except.error "wildcard update of token caches unsupported for multiple addresses"
      else
        let key := cooldownKey a0
        let should_run := !(redis.keys.contains key)
        let effs1 := effs0 ++ [TokenEffect.redisSetNX key 60]
        if should_run then
          Except.ok (⟨key :: redis.keys⟩,
                     effs1 ++ batchPhase env tokens (a0 :: rest) is_wildcard a0)
        else
          Except.ok (redis, effs1)
    else
      Except.ok (redis, effs0 ++ batchPhase env tokens (a0 :: rest) is_wildcard a0)

/-- Effect list of a call outcome (empty for the raised-exception case,
which emits none of the modelled effects). -/
def runEffects (x : Except String (RedisState × List TokenEffect)) : List TokenEffect :=
  match x with
  | Except.ok (_, effs) => effs
  | Except.error _ => []

/-- Redis state after a call outcome (unchanged on a raised exception). -/
def runRedis (d : RedisState) (x : Except String (RedisState × List TokenEffect)) : RedisState :=
  match x with
  | Except.ok (r, _) => r
  | Except.error _ => d

/-- Recogniser for the batched eth_call effect. -/
def isEthBatch : TokenEffect → Bool
  | TokenEffect.ethBatch _ => true
  | _ => false

/-- Recogniser for the two bulk database statements. -/
def isDbWrite : TokenEffect → Bool
  | TokenEffect.dbUpsert _ => true
  | TokenEffect.dbDelete _ => true
  | _ => false

/-- Number of batched eth_call round trips in an effect list. -/
def countEthBatches (effs : List TokenEffect) : Nat :=
  (effs.filter isEthBatch).length

/-- True when a critical-section outcome is a successful submission. -/
def isOkResult : Except ErrData (List Effect) → Bool
  | Except.ok _ => true
  | Except.error _ => false

/-- Concrete refresher environment with two known tokens: the first
answers a nonzero balance, the second the all-zero 32-byte string. -/
def envTwoTokens : TokenCacheEnv :=
  ⟨["0xt1", "0xt2"],
   fun t _ => if t == "0xt1" then CallResult.value "0x05" else CallResult.value ZERO_RESULT,
   true⟩

/-- Concrete refresher environment where the first token call raises
and the second answers a nonzero balance. -/
def envOneFailure : TokenCacheEnv :=
  ⟨["0xt1", "0xt2"],
   fun t _ => if t == "0xt1" then CallResult.failure else CallResult.value "0x05",
   true⟩

/-! Helper lemmas. -/

/-- SQL condition `(status != 'error' or status = 'new')` is plain
non-error, since new is not error. -/
theorem nonErrorOrNew_eq (s : Status) : nonErrorOrNew s = !(s == Status.error) := by
  cases s <;> rfl

/-- Upper-bound property of the max fold. -/
theorem maxNonceAux_le (ns : List Nat) (m : Nat) (h : maxNonceAux ns = some m) :
    ∀ n ∈ ns, n ≤ m := by
  induction ns generalizing m with
  | nil => simp [maxNonceAux] at h
  | cons a l ih =>
    intro n hn
    unfold maxNonceAux at h
    cases hl : maxNonceAux l with
    | none =>
      rw [hl] at h
      simp only [Option.some.injEq] at h
      rcases List.mem_cons.mp hn with rfl | hn2
      · omega
      · cases l with
        | nil => simp at hn2
        | cons b bs => cases hbs : maxNonceAux bs <;> simp [maxNonceAux, hbs] at hl
    | some k =>
      rw [hl] at h
      simp only [Option.some.injEq] at h
      rcases List.mem_cons.mp hn with rfl | hn2
      · omega
      · have := ih k hl n hn2
        omega

/-! Claim theorems. -/

/-- C1: in send_transaction, an existing non-error row at the sender
and nonce of the submission blocks it unless the new gas price is
strictly greater than the stored one and the stored status is not
confirmed; an accepted superseding submission dispatches the error
transition for the existing row and inserts the new row. -/
theorem send_transaction_overwrite_policy
    (db : List TxRow) (balance nwNonce newTxid : Nat) (tx : SendTxInput) (e : TxRow)
    (hex : findExisting db tx.sender tx.nonce = some e) :
    ((tx.gasprice ≤ e.gas_price ∨ e.status = Status.confirmed) →
      sendTransactionCS db balance nwNonce newTxid tx =
        Except.error ⟨"invalid_nonce", "Nonce already used"⟩) ∧
    (e.gas_price < tx.gasprice → e.status ≠ Status.confirmed →
      isOkResult (sendTransactionCS db balance nwNonce newTxid tx) = true →
      sendTransactionCS db balance nwNonce newTxid tx =
        Except.ok [Effect.updateTransaction e.txid Status.error,
                   Effect.insertRow (newTxRow newTxid tx),
                   Effect.processQueue tx.sender]) := by
  unfold sendTransactionCS
  rw [hex]
  constructor
  · intro h
    have hb : overwriteBlocked (some e) tx.gasprice = true := by
      show (decide (tx.gasprice ≤ e.gas_price) || (e.status == Status.confirmed)) = true
      rcases h with h | h
      · rw [decide_eq_true h]
        rfl
      · rw [h]
        simp
    unfold sendChecks
    rw [hb]
    simp
  · intro h1 h2 h3
    have hb : overwriteBlocked (some e) tx.gasprice = false := by
      show (decide (tx.gasprice ≤ e.gas_price) || (e.status == Status.confirmed)) = false
      rw [decide_eq_false (by omega : ¬ tx.gasprice ≤ e.gas_price)]
      simp [h2]
    unfold sendChecks at h3 ⊢
    rw [hb] at h3 ⊢
    simp only [Bool.false_eq_true, if_false, Option.isNone_some, Bool.false_and] at h3 ⊢
    by_cases hf : creditedBalance balance (some e) < tx.value + tx.startgas * tx.gasprice
    · rw [if_pos hf] at h3
      simp [isOkResult] at h3
    · rw [if_neg hf] at h3 ⊢
      by_cases hg : tx.startgas < tx.intrinsicGas
      · rw [if_pos hg] at h3
        simp [isOkResult] at h3
      · rw [if_neg hg]

/-- C2: the send_transaction fund check credits the spendable balance
with value plus gas times gas price of a row being superseded and
raises InsufficientFunds exactly when the credited balance is strictly
below the requested value plus startgas times gasprice; all arithmetic
is exact (Nat models arbitrary-precision Python int). -/
theorem send_transaction_fund_check
    (db : List TxRow) (balance nwNonce newTxid : Nat) (tx : SendTxInput)
    (hblk : overwriteBlocked (findExisting db tx.sender tx.nonce) tx.gasprice = false) :
    (sendTransactionCS db balance nwNonce newTxid tx =
        Except.error ⟨"insufficient_funds", "Insufficient Funds"⟩) ↔
      creditedBalance balance (findExisting db tx.sender tx.nonce) <
        tx.value + tx.startgas * tx.gasprice := by
  unfold sendTransactionCS sendChecks
  rw [hblk]
  simp only [Bool.false_eq_true, if_false]
  constructor
  · intro h
    by_contra hc
    rw [if_neg hc] at h
    split at h
    · simp_all
    · split at h
      · simp_all
      · split at h
        · simp_all
        · split at h <;> simp_all
  · intro h
    rw [if_pos h]

/-- C5 (amended): with no existing row at the slot, a nonce strictly
below the next allowed nonce and a nonce strictly above it are both
rejected; both rejections carry the machine-readable id invalid_nonce
and differ only in the human-readable message. -/
theorem nonce_check_rejections
    (db : List TxRow) (balance nwNonce newTxid : Nat) (tx : SendTxInput)
    (hnone : findExisting db tx.sender tx.nonce = none)
    (hfunds : tx.value + tx.startgas * tx.gasprice ≤ balance) :
    (tx.nonce < get_transaction_count nwNonce db tx.sender →
      sendTransactionCS db balance nwNonce newTxid tx =
        Except.error ⟨"invalid_nonce", "Provided nonce is too low"⟩) ∧
    (get_transaction_count nwNonce db tx.sender < tx.nonce →
      sendTransactionCS db balance nwNonce newTxid tx =
        Except.error ⟨"invalid_nonce", "Provided nonce is too high"⟩) := by
  unfold sendTransactionCS sendChecks
  rw [hnone]
  simp only [overwriteBlocked, creditedBalance, Bool.false_eq_true, if_false,
    Option.isNone_none, Bool.true_and]
  rw [if_neg (by omega)]
  constructor
  · intro h
    rw [if_pos (by simpa using h)]
  · intro h
    rw [if_neg (by simp; omega), if_pos (by simpa using h)]

/-- C5 (counterexample to the original claim): a too-low and a too-high
nonce are indeed both rejected, but the two rejections share the same
machine-readable error id invalid_nonce, so the ids are not distinct. -/
theorem nonce_check_error_ids_counterexample :
    sendTransactionCS [] 1000000 5 1 ⟨"0xa", 3, 0, 21000, 1, 21000⟩ =
      Except.error ⟨"invalid_nonce", "Provided nonce is too low"⟩ ∧
    sendTransactionCS [] 1000000 5 1 ⟨"0xa", 7, 0, 21000, 1, 21000⟩ =
      Except.error ⟨"invalid_nonce", "Provided nonce is too high"⟩ ∧
    ErrData.id ⟨"invalid_nonce", "Provided nonce is too low"⟩ =
      ErrData.id ⟨"invalid_nonce", "Provided nonce is too high"⟩ := by
  refine ⟨rfl, rfl, rfl⟩

/-- C7: when no nonce is supplied, create_transaction_skeleton resolves
it to the maximum of the network transaction count and one plus the
highest pending database nonce of the sender; without pending rows the
network transaction count is used. -/
theorem nonce_resolution (nwNonce : Nat) (db : List TxRow) (addr : String) :
    (∀ m, maxPendingNonce db addr = some m →
      resolveNonce none nwNonce db addr = max nwNonce (m + 1) ∧
      ∀ r ∈ db, (r.sender == addr && pendingStatus r.status) = true → r.nonce ≤ m) ∧
    (maxPendingNonce db addr = none → resolveNonce none nwNonce db addr = nwNonce) := by
  constructor
  · intro m hm
    constructor
    · unfold resolveNonce get_transaction_count
      rw [hm]
      show (if m + 1 < nwNonce then nwNonce else m + 1) = max nwNonce (m + 1)
      split <;> omega
    · intro r hr hpred
      have hmem : r.nonce ∈
          (db.filter (fun r => r.sender == addr && pendingStatus r.status)).map TxRow.nonce :=
        List.mem_map_of_mem _ (List.mem_filter.mpr ⟨hr, hpred⟩)
      exact maxNonceAux_le _ m hm _ hmem
  · intro hm
    unfold resolveNonce get_transaction_count
    rw [hm]

/-- C1 (witness): a pending row with gas price 1 is superseded by a
submission with gas price 2; the dispatched error transition and the
insert are emitted. -/
theorem send_transaction_overwrite_policy_witness :
    sendTransactionCS [⟨1, "0xa", 0, 5, 21000, 1, Status.new⟩] 1000000 0 2
        ⟨"0xa", 0, 0, 21000, 2, 21000⟩ =
      Except.ok [Effect.updateTransaction 1 Status.error,
                 Effect.insertRow (newTxRow 2 ⟨"0xa", 0, 0, 21000, 2, 21000⟩),
                 Effect.processQueue "0xa"] :=
  (send_transaction_overwrite_policy
      [⟨1, "0xa", 0, 5, 21000, 1, Status.new⟩] 1000000 0 2
      ⟨"0xa", 0, 0, 21000, 2, 21000⟩ ⟨1, "0xa", 0, 5, 21000, 1, Status.new⟩ rfl).2
    (by decide) (by decide) rfl

/-- C2 (witness): with no existing row, an empty balance and a cost of
21000 the fund check raises InsufficientFunds. -/
theorem send_transaction_fund_check_witness :
    sendTransactionCS [] 0 0 1 ⟨"0xa", 0, 0, 21000, 1, 21000⟩ =
      Except.error ⟨"insufficient_funds", "Insufficient Funds"⟩ :=
  (send_transaction_fund_check [] 0 0 1 ⟨"0xa", 0, 0, 21000, 1, 21000⟩ rfl).mpr
    (by decide)

/-- C5 (witness): nonce 3 against next allowed nonce 5 is rejected as
too low with id invalid_nonce. -/
theorem nonce_check_rejections_witness :
    sendTransactionCS [] 1000000 5 9 ⟨"0xa", 3, 0, 21000, 1, 21000⟩ =
      Except.error ⟨"invalid_nonce", "Provided nonce is too low"⟩ :=
  (nonce_check_rejections [] 1000000 5 9 ⟨"0xa", 3, 0, 21000, 1, 21000⟩ rfl
    (by decide)).1 (by decide)

/-- C7 (witness): one pending row with nonce 4 and network count 2
resolve to max 2 5 = 5. -/
theorem nonce_resolution_witness :
    resolveNonce none 2 [⟨1, "0xa", 4, 0, 0, 0, Status.new⟩] "0xa" = max 2 5 :=
  ((nonce_resolution 2 [⟨1, "0xa", 4, 0, 0, 0, Status.new⟩] "0xa").1 4 rfl).1

/-- Setting the status to error makes the non-error row predicate
false whatever the other columns hold. -/
theorem txMatch_status_error (sender : String) (nonce : Nat) (r : TxRow) :
    txMatch sender nonce { r with status := Status.error } = false := by
  simp [txMatch, nonErrorOrNew]

/-- A status update to error introduces no new row matching the
non-error predicate. -/
theorem setStatus_txMatch_false (sender : String) (nonce t : Nat)
    (l : List TxRow) (h : ∀ x ∈ l, txMatch sender nonce x = false) :
    ∀ y ∈ setStatus l t Status.error, txMatch sender nonce y = false := by
  intro y hy
  simp only [setStatus, List.mem_map] at hy
  rcases hy with ⟨x, hx, rfl⟩
  by_cases ht : (x.txid == t) = true
  · simp only [ht, if_true]
    exact txMatch_status_error sender nonce x
  · simp only [ht, if_false]
    exact h x hx

/-- When the slot holds at most one matching row and e is the row the
fetch found, erroring every row with the txid of e empties the slot. -/
theorem filter_setStatus_error (sender : String) (nonce : Nat) :
    ∀ (db : List TxRow) (e : TxRow),
      db.find? (txMatch sender nonce) = some e →
      (db.filter (txMatch sender nonce)).length ≤ 1 →
      (setStatus db e.txid Status.error).filter (txMatch sender nonce) = [] := by
  intro db
  induction db with
  | nil =>
    intro e hfind hcount
    simp at hfind
  | cons r rest ih =>
    intro e hfind hcount
    by_cases hp : txMatch sender nonce r = true
    · rw [List.find?_cons_of_pos _ hp] at hfind
      have hre : r = e := by injection hfind
      subst hre
      rw [List.filter_cons_of_pos hp] at hcount
      have hnil : rest.filter (txMatch sender nonce) = [] := by
        cases hfil : rest.filter (txMatch sender nonce) with
        | nil => rfl
        | cons a as =>
          rw [hfil] at hcount
          simp at hcount
      have hall : ∀ x ∈ rest, txMatch sender nonce x = false := by
        intro x hx
        have := List.filter_eq_nil.mp hnil x hx
        simpa using this
      simp only [setStatus, List.map_cons]
      rw [if_pos (by simp : (r.txid == r.txid) = true)]
      rw [List.filter_cons_of_neg (by simp [txMatch_status_error])]
      refine List.filter_eq_nil.mpr ?_
      intro y hy
      have := setStatus_txMatch_false sender nonce r.txid rest hall y (by simpa [setStatus] using hy)
      simp [this]
    · have hp2 : ¬ txMatch sender nonce r = true := hp
      rw [List.find?_cons_of_neg _ hp2] at hfind
      rw [List.filter_cons_of_neg hp2] at hcount
      simp only [setStatus, List.map_cons]
      have hhead : txMatch sender nonce
          (if (r.txid == e.txid) = true then { r with status := Status.error } else r) = false := by
        split
        · exact txMatch_status_error sender nonce r
        · simpa using hp
      rw [List.filter_cons_of_neg (by rw [hhead]; decide)]
      exact ih e hfind hcount

/-- The freshly inserted row matches the non-error predicate of its own
slot. -/
theorem txMatch_newTxRow (tx : SendTxInput) (newTxid : Nat) :
    txMatch tx.sender tx.nonce (newTxRow newTxid tx) = true := by
  simp [txMatch, newTxRow, nonErrorOrNew]

/-- Effect list of a successful critical section without an existing
row: the insert and the queue trigger. -/
theorem sendChecks_ok_none (db : List TxRow) (balance nwNonce newTxid : Nat)
    (tx : SendTxInput) (effs : List Effect)
    (hok : sendChecks db balance nwNonce newTxid tx none = Except.ok effs) :
    effs = [Effect.insertRow (newTxRow newTxid tx),
            Effect.processQueue tx.sender] := by
  unfold sendChecks at hok
  split at hok
  · simp at hok
  · split at hok
    · simp at hok
    · split at hok
      · simp at hok
      · split at hok
        · simp at hok
        · split at hok
          · simp at hok
          · simp at hok
            exact hok.symm

/-- Effect list of a successful superseding critical section: the
dispatched error transition for the existing row, the insert, and the
queue trigger, in that order. -/
theorem sendChecks_ok_some (db : List TxRow) (balance nwNonce newTxid : Nat)
    (tx : SendTxInput) (e : TxRow) (effs : List Effect)
    (hok : sendChecks db balance nwNonce newTxid tx (some e) = Except.ok effs) :
    effs = [Effect.updateTransaction e.txid Status.error,
            Effect.insertRow (newTxRow newTxid tx),
            Effect.processQueue tx.sender] := by
  unfold sendChecks at hok
  split at hok
  · simp at hok
  · split at hok
    · simp at hok
    · split at hok
      · simp at hok
      · split at hok
        · simp at hok
        · split at hok
          · simp at hok
          · simp at hok
            exact hok.symm

/-- C4 (counterexample to the original claim): superseding a pending
row commits the insert while the error transition is still only queued
at the manager dispatcher, so immediately after the commit the slot
holds two rows with status not error. -/
theorem nonce_row_invariant_counterexample :
    sendTransactionCS [⟨1, "0xa", 0, 5, 21000, 1, Status.new⟩] 999999 0 2
        ⟨"0xa", 0, 0, 21000, 2, 21000⟩ =
      Except.ok [Effect.updateTransaction 1 Status.error,
                 Effect.insertRow (newTxRow 2 ⟨"0xa", 0, 0, 21000, 2, 21000⟩),
                 Effect.processQueue "0xa"] ∧
    countNonError (applyCommit ⟨[⟨1, "0xa", 0, 5, 21000, 1, Status.new⟩], []⟩
        [Effect.updateTransaction 1 Status.error,
         Effect.insertRow (newTxRow 2 ⟨"0xa", 0, 0, 21000, 2, 21000⟩),
         Effect.processQueue "0xa"]).db "0xa" 0 = 2 := by
  refine ⟨rfl, by decide⟩

/-- C4 (amended): the error transition for a superseded row is
dispatched to the manager queue before the insert, so two non-error
rows can coexist at the slot until the dispatched update runs; once the
queued update is applied the slot holds exactly one non-error row
again, provided it held at most one before and the new serial id is
fresh. -/
theorem nonce_row_invariant_eventual
    (db : List TxRow) (balance nwNonce newTxid : Nat) (tx : SendTxInput) (effs : List Effect)
    (hfresh : ∀ r ∈ db, r.txid ≠ newTxid)
    (hinv : countNonError db tx.sender tx.nonce ≤ 1)
    (hok : sendTransactionCS db balance nwNonce newTxid tx = Except.ok effs) :
    countNonError (applyQueuedTask (applyCommit ⟨db, []⟩ effs)).db tx.sender tx.nonce = 1 := by
  unfold sendTransactionCS at hok
  cases hex : findExisting db tx.sender tx.nonce with
  | none =>
    rw [hex] at hok
    have hshape := sendChecks_ok_none db balance nwNonce newTxid tx effs hok
    subst hshape
    simp only [applyCommit, List.foldl_cons, List.foldl_nil, applyEffect, applyQueuedTask]
    unfold countNonError
    rw [List.filter_append]
    have h0 : db.filter (txMatch tx.sender tx.nonce) = [] := by
      refine List.filter_eq_nil.mpr ?_
      intro a ha
      exact List.find?_eq_none.mp hex a ha
    rw [h0]
    simp [txMatch_newTxRow]
  | some e =>
    rw [hex] at hok
    have hshape := sendChecks_ok_some db balance nwNonce newTxid tx e effs hok
    subst hshape
    simp only [applyCommit, List.foldl_cons, List.foldl_nil, applyEffect, applyQueuedTask,
      List.nil_append]
    unfold countNonError
    simp only [setStatus, List.map_append]
    rw [List.filter_append]
    have hmem : e ∈ db := List.mem_of_find?_eq_some hex
    have hne : ((newTxRow newTxid tx).txid == e.txid) = false := by
      have : e.txid ≠ newTxid := hfresh e hmem
      simp only [newTxRow]
      exact beq_eq_false_iff_ne.mpr (by omega)
    have hA : (List.map (fun r => if (r.txid == e.txid) = true
        then { r with status := Status.error } else r) db).filter
          (txMatch tx.sender tx.nonce) = [] := by
      have := filter_setStatus_error tx.sender tx.nonce db e hex hinv
      simpa [setStatus] using this
    have hB : (List.map (fun r => if (r.txid == e.txid) = true
        then { r with status := Status.error } else r) [newTxRow newTxid tx]) =
          [newTxRow newTxid tx] := by
      simp only [List.map_cons, List.map_nil, hne, Bool.false_eq_true, if_false]
    rw [hA, hB]
    simp [txMatch_newTxRow]

/-- C4 (witness): the amended statement at the counterexample scenario:
after the manager applies the queued error transition the slot is back
to exactly one non-error row. -/
theorem nonce_row_invariant_eventual_witness :
    countNonError (applyQueuedTask (applyCommit ⟨[⟨1, "0xa", 0, 5, 21000, 1, Status.new⟩], []⟩
        [Effect.updateTransaction 1 Status.error,
         Effect.insertRow (newTxRow 2 ⟨"0xa", 0, 0, 21000, 2, 21000⟩),
         Effect.processQueue "0xa"])).db "0xa" 0 = 1 :=
  nonce_row_invariant_eventual [⟨1, "0xa", 0, 5, 21000, 1, Status.new⟩] 999999 0 2
    ⟨"0xa", 0, 0, 21000, 2, 21000⟩ _ (by decide) (by decide) rfl

/-- C3 (counterexample to the original claim): a max-value send to a
plain (no-code) address with balance 0 and gas price 1 has balance
strictly below 21000 times the gas price, yet the path raises no
InsufficientFunds: it succeeds with the negative value -21000, which
flows on into transaction creation. -/
theorem max_value_plain_address_counterexample :
    (0 : Nat) < 21000 * 1 ∧
    maxValueNative 0 1 none false (fun _ => none) = Except.ok (-21000, 21000) := by
  exact ⟨by decide, rfl⟩

/-- C3 (amended): for value max, no token, a recipient without contract
code and no supplied gas, the branch always resolves
value = balance - 21000 * gas_price and gas = 21000; when the balance
covers the cost this equals the claimed non-negative difference, and
when it does not, the branch raises no InsufficientFunds (the negative
value is handed to transaction creation, which fails differently). -/
theorem max_value_plain_address (balance gasPrice : Nat) (est : Int → Option Nat) :
    maxValueNative balance gasPrice none false est =
      Except.ok ((balance : Int) - ((gasPrice * 21000 : Nat) : Int), 21000) ∧
    (21000 * gasPrice ≤ balance →
      (balance : Int) - ((gasPrice * 21000 : Nat) : Int) =
        ((balance - 21000 * gasPrice : Nat) : Int)) ∧
    (balance < 21000 * gasPrice →
      maxValueNative balance gasPrice none false est ≠
        Except.error SkelErr.insufficientFunds) := by
  refine ⟨rfl, ?_, ?_⟩
  · intro h
    omega
  · intro _
    intro hcontra
    rw [show maxValueNative balance gasPrice none false est =
      Except.ok ((balance : Int) - ((gasPrice * 21000 : Nat) : Int), 21000) from rfl] at hcontra
    exact Except.noConfusion hcontra

/-- C3 (witness): with balance exactly the cost, the resolved value is
the non-negative difference zero and gas is 21000. -/
theorem max_value_plain_address_witness :
    ((21000 : Nat) : Int) - (((1 : Nat) * 21000 : Nat) : Int) =
      ((21000 - 21000 * 1 : Nat) : Int) :=
  (max_value_plain_address 21000 1 (fun _ => none)).2.1 (by decide)

/-- C6: a caller-supplied gas price is honored only when the nonce was
also supplied or one of the two whitelist lookups succeeded; otherwise
it is discarded and the price resolves through the cached gas station
value, then the node query, then the static default. -/
theorem gas_price_resolution (gp dflt : Nat) (nonce? : Option Nat) (fwl twl : Bool)
    (gs : Option (Option Nat)) (node : Option Nat) :
    (nonce?.isSome = true →
      resolveGasPrice (some gp) nonce? fwl twl gs node dflt = gp) ∧
    ((fwl = true ∨ twl = true) →
      resolveGasPrice (some gp) nonce? fwl twl gs node dflt = gp) ∧
    (fwl = false → twl = false →
      resolveGasPrice (some gp) none fwl twl gs node dflt =
        resolveGasPrice none none fwl twl gs node dflt) ∧
    (∀ g, gs = some (some g) →
      resolveGasPrice none nonce? fwl twl gs node dflt = g) ∧
    ((gs = none ∨ gs = some none) → ∀ g, node = some g →
      resolveGasPrice none nonce? fwl twl gs node dflt = g) ∧
    ((gs = none ∨ gs = some none) → node = none →
      resolveGasPrice none nonce? fwl twl gs node dflt = dflt) := by
  refine ⟨?_, ?_, ?_, ?_, ?_, ?_⟩
  · intro h
    cases nonce? with
    | none => simp at h
    | some n => rfl
  · intro h
    rcases h with h | h <;> subst h <;> cases nonce? <;> simp [resolveGasPrice]
  · intro hf ht
    subst hf
    subst ht
    rfl
  · intro g hgs
    subst hgs
    cases nonce? <;> rfl
  · intro hgs g hnode
    subst hnode
    rcases hgs with h | h <;> subst h <;> cases nonce? <;> rfl
  · intro hgs hnode
    subst hnode
    rcases hgs with h | h <;> subst h <;> cases nonce? <;> rfl

/-- C6 (witness): a supplied gas price of 7 with a supplied nonce is
used unchanged. -/
theorem gas_price_resolution_witness :
    resolveGasPrice (some 7) (some 3) false false none none 1 = 7 :=
  (gas_price_resolution 7 1 (some 3) false false none none).1 rfl

/-- A wildcard refresh whose cooldown key already exists performs only
the token-list read and the failed set-if-not-exists. -/
theorem update_token_cache_wildcard_skip (env : TokenCacheEnv) (redis : RedisState)
    (A : String) (h : redis.keys.contains (cooldownKey A) = true) :
    update_token_cache env redis "*" [A] =
      Except.ok (redis, [TokenEffect.dbFetchTokens,
                         TokenEffect.redisSetNX (cooldownKey A) 60]) := by
  have hmem : cooldownKey A ∈ redis.keys := by simpa using h
  unfold update_token_cache
  simp [h, hmem]

/-- A wildcard refresh whose cooldown key is absent sets the key and
runs the batch phase over all known tokens. -/
theorem update_token_cache_wildcard_run (env : TokenCacheEnv) (redis : RedisState)
    (A : String) (h : redis.keys.contains (cooldownKey A) = false) :
    update_token_cache env redis "*" [A] =
      Except.ok (⟨cooldownKey A :: redis.keys⟩,
        TokenEffect.dbFetchTokens :: TokenEffect.redisSetNX (cooldownKey A) 60 ::
          batchPhase env env.knownTokens [A] true A) := by
  have hmem : cooldownKey A ∉ redis.keys := by simpa using h
  unfold update_token_cache
  simp [h, hmem]

/-- The batch phase over a nonempty token list and one address issues
exactly one batched eth_call round trip. -/
theorem countEthBatches_batchPhase_single (env : TokenCacheEnv) (tokens : List String)
    (wc : Bool) (A : String) (htok : tokens ≠ []) :
    countEthBatches (batchPhase env tokens [A] wc A) = 1 := by
  unfold batchPhase countEthBatches
  dsimp only
  have hlen : 0 < ([A].flatMap (fun a => tokens.map (fun t => (t, a)))).length := by
    simpa [List.length_pos] using htok
  rw [if_pos hlen]
  simp only [List.filter_append, List.length_append, apply_ite (List.filter isEthBatch)]
  split <;> split <;> split <;> simp [isEthBatch]

/-- The batch phase never touches a redis key. -/
theorem redisDel_not_mem_batchPhase (env : TokenCacheEnv) (tokens : List String)
    (addrs : List String) (wc : Bool) (a0 k : String) :
    TokenEffect.redisDel k ∉ batchPhase env tokens addrs wc a0 := by
  unfold batchPhase
  dsimp only
  split
  · split <;> split <;> split <;> simp
  · simp

/-- C8: the wildcard refresh sets the cooldown key for the address with
a fixed 60 second expiry using set-if-not-exists; when the key already
exists it stops before any batch or cache mutation, so two wildcard
calls threaded within the window execute the batch exactly once, and no
call path ever deletes a redis key before its expiry. -/
theorem wildcard_cooldown (env : TokenCacheEnv) (redis : RedisState) (A : String) :
    (redis.keys.contains (cooldownKey A) = true →
      update_token_cache env redis "*" [A] =
        Except.ok (redis, [TokenEffect.dbFetchTokens,
                           TokenEffect.redisSetNX (cooldownKey A) 60])) ∧
    (redis.keys.contains (cooldownKey A) = false → env.knownTokens ≠ [] →
      countEthBatches
        (runEffects (update_token_cache env redis "*" [A]) ++
         runEffects (update_token_cache env
           (runRedis redis (update_token_cache env redis "*" [A])) "*" [A])) = 1) ∧
    (∀ k, TokenEffect.redisDel k ∉ runEffects (update_token_cache env redis "*" [A])) := by
  refine ⟨?_, ?_, ?_⟩
  · intro h
    exact update_token_cache_wildcard_skip env redis A h
  · intro h htok
    rw [update_token_cache_wildcard_run env redis A h]
    have h2 : (RedisState.mk (cooldownKey A :: redis.keys)).keys.contains (cooldownKey A)
        = true := by
      simp
    rw [show runRedis redis (Except.ok (⟨cooldownKey A :: redis.keys⟩,
        TokenEffect.dbFetchTokens :: TokenEffect.redisSetNX (cooldownKey A) 60 ::
          batchPhase env env.knownTokens [A] true A) :
        Except String (RedisState × List TokenEffect)) =
      ⟨cooldownKey A :: redis.keys⟩ from rfl]
    rw [update_token_cache_wildcard_skip env ⟨cooldownKey A :: redis.keys⟩ A h2]
    show countEthBatches
      ((TokenEffect.dbFetchTokens :: TokenEffect.redisSetNX (cooldownKey A) 60 ::
        batchPhase env env.knownTokens [A] true A) ++
       [TokenEffect.dbFetchTokens, TokenEffect.redisSetNX (cooldownKey A) 60]) = 1
    unfold countEthBatches
    simp only [List.cons_append, List.filter_cons, List.filter_append]
    simp [isEthBatch]
    have := countEthBatches_batchPhase_single env env.knownTokens true A htok
    unfold countEthBatches at this
    omega
  · intro k
    cases hc : redis.keys.contains (cooldownKey A) with
    | true =>
      rw [update_token_cache_wildcard_skip env redis A hc]
      simp [runEffects]
    | false =>
      rw [update_token_cache_wildcard_run env redis A hc]
      simp only [runEffects, List.mem_cons]
      intro hmem
      rcases hmem with h | h | h
      · exact TokenEffect.noConfusion h
      · exact TokenEffect.noConfusion h
      · exact redisDel_not_mem_batchPhase env env.knownTokens [A] true A k h

/-- C8 (witness): with one known token and a fresh cooldown state, two
threaded wildcard calls for the same address run the batch once. -/
theorem wildcard_cooldown_witness :
    countEthBatches
      (runEffects (update_token_cache envTwoTokens ⟨[]⟩ "*" ["0xa"]) ++
       runEffects (update_token_cache envTwoTokens
         (runRedis ⟨[]⟩ (update_token_cache envTwoTokens ⟨[]⟩ "*" ["0xa"])) "*" ["0xa"])) = 1 :=
  (wildcard_cooldown envTwoTokens ⟨[]⟩ "0xa").2.1 (by decide) (by decide)

/-- C9: per-pair results are classified independently: a raised future
is skipped, the all-zero 32-byte string and the empty 0x string count
as zero balance, any other string is decoded by parse_int, positive
balances are inserted and zero balances deleted; at most two bulk
database statements are issued per batch; refreshing two pairs where
one returns nonzero and one returns all-zero issues exactly one bulk
upsert and one bulk delete, and a per-pair failure leaves the other
pair processed. -/
theorem token_cache_classification (v : String) (n : Nat) :
    processPair CallResult.failure = PairOutcome.skip ∧
    processPair (CallResult.value ZERO_RESULT) = PairOutcome.deleteRow ∧
    processPair (CallResult.value "0x") = PairOutcome.deleteRow ∧
    ((v == ZERO_RESULT) = false → (v == "0x") = false → parse_int v = some n →
      processPair (CallResult.value v) =
        if n > 0 then PairOutcome.insertVal n else PairOutcome.deleteRow) ∧
    (∀ (env : TokenCacheEnv) (tokens addrs : List String) (wc : Bool) (a0 : String),
      (List.filter isDbWrite (batchPhase env tokens addrs wc a0)).length ≤ 2) ∧
    runEffects (update_token_cache envTwoTokens ⟨[]⟩ "*" ["0xa"]) =
      [TokenEffect.dbFetchTokens,
       TokenEffect.redisSetNX (cooldownKey "0xa") 60,
       TokenEffect.ethBatch
         [("0xt1", balanceOfCallData "0xa"), ("0xt2", balanceOfCallData "0xa")],
       TokenEffect.dbUpsert [("0xt1", "0xa", 5)],
       TokenEffect.dbDelete [("0xt2", "0xa")],
       TokenEffect.notify "0xa"] ∧
    runEffects (update_token_cache envOneFailure ⟨[]⟩ "*" ["0xa"]) =
      [TokenEffect.dbFetchTokens,
       TokenEffect.redisSetNX (cooldownKey "0xa") 60,
       TokenEffect.ethBatch
         [("0xt1", balanceOfCallData "0xa"), ("0xt2", balanceOfCallData "0xa")],
       TokenEffect.dbUpsert [("0xt2", "0xa", 5)],
       TokenEffect.notify "0xa"] := by
  refine ⟨rfl, rfl, rfl, ?_, ?_, by decide, by decide⟩
  · intro h1 h2 h3
    simp only [processPair]
    rw [h1, h2]
    simp only [Bool.or_self, Bool.false_eq_true, if_false]
    rw [h3]
  · intro env tokens addrs wc a0
    unfold batchPhase
    dsimp only
    split
    · simp only [List.filter_append, List.length_append, apply_ite (List.filter isDbWrite)]
      split <;> split <;> split <;> simp [isDbWrite]
    · simp

/-- C9 (witness): a nonzero hex reply decodes to 5 and is classified
for insertion. -/
theorem token_cache_classification_witness :
    processPair (CallResult.value "0x05") =
      if 5 > 0 then PairOutcome.insertVal 5 else PairOutcome.deleteRow :=
  (token_cache_classification "0x05" 5).2.2.2.1 (by decide) (by decide) (by decide)

/-- C10: update_token_cache called with an empty address list returns
at once for any contract argument: the redis state is unchanged and no
effect at all is emitted, so no RPC, no database read or write, no
cooldown write and no notification happen. -/
theorem update_token_cache_empty_addresses (env : TokenCacheEnv) (redis : RedisState)
    (contract_address : String) :
    update_token_cache env redis contract_address [] = Except.ok (redis, []) := rfl

end ToshiEth
